import Mathlib

/-!
Verification development for the OneStepForMaixCam control panel (`app.py`).

The program manipulates POSIX path strings through `os.path`, keeps a
persisted job-state record (`init_status` / `get_status` / `set_status`),
a checkpoint-to-dataset mapping store (`save_pt_dataset_mapping` /
`get_pt_dataset_mapping`), samples dataset images
(`copy_images_to_transfer`), generates MUD descriptor files
(`create_mud_file`), and orchestrates training / conversion pipelines
(`run_docker_training` / `run_model_conversion`) with best-effort stop
requests (`stop_training` / `stop_conversion`).

Strings are embedded as `List Char` (written `Str`).  Filesystem and
subprocess effects are represented by explicit traces: each background
task is a function from an environment (the nondeterministic inputs it
reads: spawn results, directory listings, the mapping file, ...) to the
trace of job-state writes, log-sink appends and spawn attempts it
performs.
-/

/-- Character-list strings, the carrier for all embedded Python strings. -/
abbrev Str := List Char

/-- Shorthand turning a Lean string literal into the embedded string type. -/
def strL (s : String) : Str := s.toList

/- ### POSIX path layer (semantics of `os.path` as used by `app.py`, on Linux) -/

/-- `str.split('/')`: split into components at every separator, keeping
empty components (faithful to Python `str.split` with an explicit
separator, which returns `[""]` on the empty string). -/
def splitSep : Str → List Str
  | [] => [[]]
  | c :: cs =>
    if c = '/' then [] :: splitSep cs
    else
      match splitSep cs with
      | p :: ps => (c :: p) :: ps
      | [] => [[c]]

/-- `'/'.join(parts)`. -/
def joinSep : List Str → Str
  | [] => []
  | [p] => p
  | p :: ps => p ++ '/' :: joinSep ps

/-- `posixpath.isabs`: the path starts with a separator
(`s.startswith('/')`). -/
def isabs (p : Str) : Bool := decide (p.take 1 = ['/'])

/-- The number of initial slashes `posixpath.normpath` preserves
(`1` normally, the POSIX-special `2` for exactly two leading slashes). -/
def initialSlashes (p : Str) : Nat :=
  if p.take 1 = ['/'] then
    if p.take 2 = ['/', '/'] ∧ p.take 3 ≠ ['/', '/', '/'] then 2 else 1
  else 0

/-- The `..` component. -/
def ddot : Str := ['.', '.']

/-- The component loop of `posixpath.normpath`: empty and `.` components
are dropped; `..` pops the previous component except at the start of a
relative path or after a surviving `..`.  `acc` holds the accepted
components in reverse. -/
def normLoop (flag : Bool) : List Str → List Str → List Str
  | acc, [] => acc.reverse
  | acc, comp :: rest =>
    if comp = [] ∨ comp = ['.'] then normLoop flag acc rest
    else if comp ≠ ddot ∨ (flag = false ∧ acc = []) ∨ acc.head? = some ddot then
      normLoop flag (comp :: acc) rest
    else if acc = [] then normLoop flag acc rest
    else normLoop flag acc.tail rest

/-- Assemble slash prefix and components; an empty result renders as `.`. -/
def renderOut (slashes : Nat) (comps : List Str) : Str :=
  let out := List.replicate slashes '/' ++ joinSep comps
  if out = [] then ['.'] else out

/-- `posixpath.normpath`. -/
def normpath (p : Str) : Str :=
  if p = [] then ['.']
  else
    let slashes := initialSlashes p
    let comps := normLoop (decide (0 < slashes)) [] (splitSep p)
    renderOut slashes comps

/-- `posixpath.join` on two arguments (the only arity `app.py` needs,
iterated for more components). -/
def joinP (a b : Str) : Str :=
  if isabs b then b
  else if a = [] ∨ a.getLast? = some '/' then a ++ b
  else a ++ '/' :: b

/-- `posixpath.abspath`, with the process working directory passed
explicitly. -/
def abspath (cwd p : Str) : Str :=
  if isabs p then normpath p else normpath (joinP cwd p)

/-- `posixpath.basename`: everything after the last separator. -/
def basenameP (p : Str) : Str :=
  (p.reverse.takeWhile (fun c => c ≠ '/')).reverse

/-- `posixpath.dirname`: everything up to the last separator, with
trailing separators stripped unless the head is all separators. -/
def dirnameP (p : Str) : Str :=
  let head := (p.reverse.dropWhile (fun c => c ≠ '/')).reverse
  if head ≠ [] ∧ head.any (fun c => c ≠ '/') then
    (head.reverse.dropWhile (fun c => c = '/')).reverse
  else head

/-- `posixpath.splitext`: split off the extension at the last dot of the
basename, provided some non-dot character of the basename precedes it. -/
def splitextP (p : Str) : Str × Str :=
  let base := basenameP p
  let extRev := base.reverse.takeWhile (fun c => c ≠ '.')
  if extRev.length = base.length then (p, [])
  else
    let remaining := base.take (base.length - extRev.length - 1)
    if remaining.all (fun c => c = '.') then (p, [])
    else (p.take (p.length - extRev.length - 1), '.' :: extRev.reverse)

/-- Python `str.startswith`. -/
def startsWithL : Str → Str → Bool
  | [], _ => true
  | _ :: _, [] => false
  | a :: as_, b :: bs => a = b && startsWithL as_ bs

/-- Python `str.endswith`. -/
def endsWithL (needle hay : Str) : Bool :=
  startsWithL needle.reverse hay.reverse

/-- Python substring containment (`needle in hay`). -/
def containsSub (needle : Str) : Str → Bool
  | [] => startsWithL needle []
  | c :: rest => startsWithL needle (c :: rest) || containsSub needle rest

/-- Decimal rendering of a natural number (Python `str(n)`). -/
def natStr (n : Nat) : Str := Nat.toDigits 10 n

/-- Decimal rendering of an integer (Python `str(i)`). -/
def intStr (i : Int) : Str :=
  if i < 0 then '-' :: natStr i.natAbs else natStr i.natAbs

/-- Python `f"{n:03d}"`: decimal digits left-padded with zeros to width 3. -/
def pad3 (n : Nat) : Str :=
  List.replicate (3 - (natStr n).length) '0' ++ natStr n

/-- A clean path component: nonempty, not `.`, free of separators. -/
def cleanComp (c : Str) : Prop := c ≠ [] ∧ c ≠ ['.'] ∧ '/' ∉ c

/-- Normal form of the component list `normLoop` produces: for absolute
paths no `..` survives; for relative paths the surviving `..` components
form a prefix. -/
def compsNF (flag : Bool) (comps : List Str) : Prop :=
  if flag then ∀ c ∈ comps, cleanComp c ∧ c ≠ ddot
  else ∃ k rest, comps = List.replicate k ddot ++ rest ∧
    ∀ c ∈ rest, cleanComp c ∧ c ≠ ddot

/- ### Job-state store (`init_status` / `get_status` / `set_status`) -/

/-- The persisted job-state record (`test_status.json`). -/
structure StatusRec where
  status : Str
  pid : Option Int
  timestamp : Str
  current_run : Option Str
deriving DecidableEq, Repr

/-- The default record `init_status` writes. -/
def defaultStatus (now : Str) : StatusRec :=
  { status := strL "idle", pid := none, timestamp := now, current_run := none }

/-- The backing file of the job-state store: missing, present with
unparsable content, or present with a record. -/
inductive StatusFile where
  | missing
  | corrupt
  | valid (rec : StatusRec)
deriving DecidableEq

/-- `init_status`: writes the default record only when the file does not
exist; an existing file (even corrupt) is left untouched. -/
def init_status (now : Str) : StatusFile → StatusFile
  | .missing => .valid (defaultStatus now)
  | f => f

/-- `get_status` with explicit recursion fuel: parse the file, and on any
failure run `init_status` and retry.  `none` means the recursion has not
produced a value within `fuel` rounds (the Python original recurses
unboundedly). -/
def get_status_fuel (now : Str) : Nat → StatusFile → Option StatusRec
  | 0, _ => none
  | fuel + 1, f =>
    match f with
    | .valid r => some r
    | f => get_status_fuel now fuel (init_status now f)

/-- `set_status(status, pid=None, current_run=None)`: read-modify-write of
the record; `pid` and `current_run` are replaced only when provided, the
timestamp is always refreshed. -/
def set_status (now : Str) (rec : StatusRec) (status : Str)
    (pid : Option Int) (current_run : Option Str) : StatusRec :=
  { status := status
    timestamp := now
    pid := match pid with | some v => some v | none => rec.pid
    current_run := match current_run with | some v => some v | none => rec.current_run }

/-- One `set_status` call as recorded in a task trace:
(status, pid argument, current_run argument). -/
abbrev StateWrite := Str × Option Int × Option Str

/-- Replay a sequence of recorded `set_status` calls over a record. -/
def applyWrites (now : Str) (rec : StatusRec) (ws : List StateWrite) : StatusRec :=
  ws.foldl (fun r w => set_status now r w.1 w.2.1 w.2.2) rec

/- ### Mapping store (`save_pt_dataset_mapping` / `get_pt_dataset_mapping`) -/

/-- One value of the checkpoint-path-keyed mapping store
(`pt_dataset_mapping.json`). -/
structure MappingRec where
  dataset_path : Str
  run_name : Str
  created_time : Str
  images_path : Str
deriving DecidableEq, Repr

/-- The record `save_pt_dataset_mapping` stores for a checkpoint path:
the dataset path, the run name, a creation time, and the dataset's
`images` subdirectory. -/
def mk_mapping_rec (dataset_path run_name now : Str) : MappingRec :=
  { dataset_path := dataset_path
    run_name := run_name
    created_time := now
    images_path := joinP dataset_path (strL "images") }

/-- The mapping store contents: an insertion-ordered key/value table
(a JSON object, so keys are unique). -/
abbrev MappingStore := List (Str × MappingRec)

/-- Python `key in mapping` / `mapping[key]` on the embedded store. -/
def lookupAssoc (m : MappingStore) (k : Str) : Option MappingRec :=
  (m.find? (fun kv => decide (kv.1 = k))).map (fun kv => kv.2)

/-- `get_pt_dataset_mapping`: exact match, then absolute-path match, then
normalized-path match, then a normalized scan over all keys. -/
def get_pt_dataset_mapping (cwd : Str) (m : MappingStore) (pt_file_path : Str) :
    Option MappingRec :=
  match lookupAssoc m pt_file_path with
  | some r => some r
  | none =>
    let abs_path := abspath cwd pt_file_path
    match lookupAssoc m abs_path with
    | some r => some r
    | none =>
      let normalized_path := normpath abs_path
      match lookupAssoc m normalized_path with
      | some r => some r
      | none =>
        (m.find? (fun kv => decide (normpath kv.1 = normalized_path))).map
          (fun kv => kv.2)

/- ### Image sampling (`copy_images_to_transfer`) -/

/-- Result of the sampling stage: the `copy2` operations performed into
the `images/` subdirectory (source, target), the returned list of copied
target paths, the extra `test.<ext>` copy, and the returned test path. -/
structure CopyOut where
  copies : List (Str × Str)
  copied_images : List Str
  test_copy : Option (Str × Str)
  test_image : Option Str
deriving DecidableEq, Repr

/-- Output filename of the `i`-th (1-based) sampled image:
`image_<i zero-padded to 3>.<source ext>`. -/
def imageTarget (images_dir : Str) (i : Nat) (src : Str) : Str :=
  joinP images_dir (strL "image_" ++ pad3 i ++ (splitextP src).2)

/-- `copy_images_to_transfer(images_list, target_dir, target_count)`:
with enough images, copy the first `target_count`; with too few (but at
least one), cycle through the available images until `target_count`
copies are made; with none, return empty.  Sources that do not exist are
skipped.  The first copied image is additionally copied as
`test.<ext>` at the work-directory root.  `copyMkOut` assembles the
returned structure (copied list, test copy) from the performed copies. -/
def copyMkOut (target_dir : Str) (copies : List (Str × Str)) : CopyOut :=
  let copied_images := copies.map (fun c => c.2)
  match copied_images.head? with
  | some t =>
    let test_image := joinP target_dir (strL "test" ++ (splitextP t).2)
    { copies := copies, copied_images := copied_images
      test_copy := some (t, test_image), test_image := some test_image }
  | none =>
    { copies := copies, copied_images := copied_images
      test_copy := none, test_image := none }

def copy_images_to_transfer (existsF : Str → Bool) (images_list : List Str)
    (target_dir : Str) (target_count : Nat) : CopyOut :=
  let images_dir := joinP target_dir (strL "images")
  if images_list.length ≥ target_count then
    copyMkOut target_dir ((images_list.take target_count).enum.filterMap
      (fun p =>
        if existsF p.2 then some (p.2, imageTarget images_dir (p.1 + 1) p.2)
        else none))
  else if images_list.length = 0 then
    { copies := [], copied_images := [], test_copy := none, test_image := none }
  else
    copyMkOut target_dir ((List.range target_count).filterMap
      (fun i =>
        let src := images_list.getD (i % images_list.length) []
        if existsF src then some (src, imageTarget images_dir (i + 1) src)
        else none))

/- ### Artifact assembler (`create_mud_file` / `create_model_package_zip`) -/

/-- `", ".join(labels) if labels else "object"`. -/
def labelsStr (labels : List Str) : Str :=
  match labels with
  | [] => strL "object"
  | l :: ls => ls.foldl (fun acc x => acc ++ strL ", " ++ x) l

/-- The MUD descriptor text written by `create_mud_file`, a pure function
of the binary model's filename and the label list. -/
def mud_content (cvimodel_filename : Str) (labels : List Str) : Str :=
  strL "[basic]\ntype = cvimodel\nmodel = " ++ cvimodel_filename ++
  strL "\n\n[extra]\nmodel_type = yolo11\ninput_type = rgb\nmean = 0, 0, 0\nscale = 0.00392156862745098, 0.00392156862745098, 0.00392156862745098\nanchors = 10,13, 16,30, 33,23, 30,61, 62,45, 59,119, 116,90, 156,198, 373,326\nlabels = " ++
  labelsStr labels ++ strL "\n"

/-- `create_mud_file(cvimodel_path, ...)`: descriptor path (same
directory, basename with `.mud`), descriptor content, success message. -/
def create_mud_file (labels : List Str) (cvimodel_path : Str) :
    Str × Str × Str :=
  let cvimodel_dir := dirnameP cvimodel_path
  let cvimodel_filename := basenameP cvimodel_path
  let cvimodel_basename := (splitextP cvimodel_filename).1
  let mud_filename := cvimodel_basename ++ strL ".mud"
  let mud_path := joinP cvimodel_dir mud_filename
  (mud_path, mud_content cvimodel_filename labels,
    strL "✅ 成功创建MUD配置文件: " ++ mud_filename)

/-- `create_model_package_zip`: the bundle path (basename with `.zip` in
the model's directory) and its success message; `sizeStr` abstracts the
rendered `{size:.2f}` of the created archive. -/
def create_model_package_zip (sizeStr : Str → Str) (cvimodel_path : Str) :
    Str × Str :=
  let model_dir := dirnameP cvimodel_path
  let cvimodel_basename := (splitextP (basenameP cvimodel_path)).1
  let zip_filename := cvimodel_basename ++ strL ".zip"
  let zip_path := joinP model_dir zip_filename
  (zip_path,
    strL "✅ 成功创建模型包: " ++ zip_filename ++ strL " (" ++ sizeStr zip_path ++ strL " MB)")

/- ### String replacement (Python `str.replace`, used by the command builders) -/

/-- Python `hay.replace("", new)`. -/
def replaceEmptyL (new : Str) : Str → Str
  | [] => new
  | c :: cs => new ++ c :: replaceEmptyL new cs

/-- Python `hay.replace(old, new)` for nonempty `old` (first char split
off to guarantee progress): leftmost, non-overlapping. -/
def replaceNE (o : Char) (os new : Str) : Str → Str
  | [] => []
  | c :: cs =>
    if startsWithL (o :: os) (c :: cs) then
      new ++ replaceNE o os new (cs.drop os.length)
    else c :: replaceNE o os new cs
termination_by l => l.length
decreasing_by
  · simp only [List.length_cons, List.length_drop]
    exact Nat.lt_succ_of_le (Nat.sub_le _ _)
  · simp

/-- Python `hay.replace(old, new)`. -/
def replaceL (old new hay : Str) : Str :=
  match old with
  | [] => replaceEmptyL new hay
  | o :: os => replaceNE o os new hay

/-- `normalize_path_for_docker` on Linux: absolute path with separators
already forward slashes (`replace(os.sep, "/")` with `os.sep = '/'`). -/
def normalize_path_for_docker (cwd local_path : Str) : Str :=
  replaceL (strL "/") (strL "/") (abspath cwd local_path)

/- ### Docker command builders -/

/-- `build_docker_training_command`: the shell command plus the three
host mount directories. -/
def build_docker_training_command (cwd model : Str) (epochs imgsz : Int)
    (run_name : Str) : Str × Str × Str × Str :=
  let data_path := joinP cwd (strL "data")
  let models_path := joinP cwd (strL "models")
  let outputs_path := joinP cwd (strL "outputs")
  let docker_data_path := normalize_path_for_docker cwd data_path
  let docker_models_path := normalize_path_for_docker cwd models_path
  let docker_outputs_path := normalize_path_for_docker cwd outputs_path
  let docker_command :=
    strL "docker run --gpus all --name yolov11-" ++ run_name ++
    strL " --rm --shm-size=4g -v \"" ++ docker_data_path ++
    strL ":/workspace/data\" -v \"" ++ docker_models_path ++
    strL ":/workspace/models\" -v \"" ++ docker_outputs_path ++
    strL ":/workspace/outputs\" lintheyoung/yolov11-trainer:latest bash -c \"cd /workspace/models && yolo train data=/workspace/data/data.yaml model=" ++
    model ++ strL " epochs=" ++ intStr epochs ++ strL " imgsz=" ++ intStr imgsz ++
    strL " project=/workspace/outputs name=" ++ run_name ++ strL "\""
  (docker_command, data_path, models_path, outputs_path)

/-- `build_docker_conversion_command`. -/
def build_docker_conversion_command (cwd model_path format : Str)
    (imgsz_height imgsz_width opset : Int) (conversion_name : Str) : Str :=
  let data_path := joinP cwd (strL "data")
  let models_path := joinP cwd (strL "models")
  let outputs_path := joinP cwd (strL "outputs")
  let docker_model_path :=
    replaceL (strL "/") (strL "/") (replaceL outputs_path (strL "/workspace/outputs") model_path)
  let docker_data_path := normalize_path_for_docker cwd data_path
  let docker_models_path := normalize_path_for_docker cwd models_path
  let docker_outputs_path := normalize_path_for_docker cwd outputs_path
  strL "docker run --gpus all --name yolo-export-" ++ conversion_name ++
  strL " --rm --shm-size=4g -v \"" ++ docker_data_path ++
  strL ":/workspace/data\" -v \"" ++ docker_models_path ++
  strL ":/workspace/models\" -v \"" ++ docker_outputs_path ++
  strL ":/workspace/outputs\" lintheyoung/yolov11-trainer:latest bash -c \"yolo export model=" ++
  docker_model_path ++ strL " format=" ++ format ++ strL " imgsz=" ++
  intStr imgsz_height ++ strL "," ++ intStr imgsz_width ++ strL " opset=" ++
  intStr opset ++ strL " batch=1\""

/-- `build_docker_cvimodel_command`. -/
def build_docker_cvimodel_command (cwd transfer_dir : Str) : Str :=
  let docker_transfer_path := normalize_path_for_docker cwd (abspath cwd transfer_dir)
  strL "docker run --rm -it -v \"" ++ docker_transfer_path ++
  strL ":/workspace\" lintheyoung/tpuc_dev_env_build bash -c \"cd /workspace && ./convert_cvimodel.sh\""

/- ### CviModel artifact extraction (`find_and_move_cvimodel`) -/

/-- `find_and_move_cvimodel`: searches the `workspace` subdirectory
listing for `.cvimodel` files, prefers one containing the checkpoint's
base name (Python substring test), renames it to
`<conversion_name>_int8.cvimodel` at the work-directory root, and then
creates the MUD descriptor and the zip bundle.  Returns (moved path,
mud path, zip path, message). -/
def find_and_move_cvimodel (sizeStr : Str → Str) (labels : List Str)
    (workspace_listing : Option (List Str))
    (transfer_dir conversion_name selected_model_name : Str) :
    Option Str × Option Str × Option Str × Str :=
  let model_base_name := (splitextP (basenameP selected_model_name)).1
  match workspace_listing with
  | none => (none, none, none, strL "未找到workspace目录")
  | some listing =>
    let cvimodel_files := listing.filter (fun f => endsWithL (strL ".cvimodel") f)
    match cvimodel_files with
    | [] => (none, none, none, strL "未找到.cvimodel文件")
    | c :: _ =>
      let target_cvimodel :=
        ((cvimodel_files.find? (fun f => containsSub model_base_name f)).getD c)
      let new_filename := conversion_name ++ strL "_int8.cvimodel"
      let target_path := joinP transfer_dir new_filename
      let mud := create_mud_file labels target_path
      let zip := create_model_package_zip sizeStr target_path
      (some target_path, some mud.1, some zip.1,
        strL "✅ 成功移动并重命名: " ++ target_cvimodel ++ strL " -> " ++ new_filename ++
        strL "\n" ++ mud.2.2 ++ strL "\n" ++ zip.2)

/- ### Pipeline traces -/

/-- Which external process a `create_subprocess_safe` call attempts to
start during the conversion job. -/
inductive SpawnTag where
  | primary
  | secondary
deriving DecidableEq, Repr

/-- The observable effects of one conversion-task execution. -/
structure ConvTrace where
  stateWrites : List StateWrite
  logs : List Str
  spawns : List SpawnTag
deriving DecidableEq

/-- Environment of one `run_model_conversion` background-task execution:
everything the task reads from the outside world (chosen checkpoint,
mapping file, directory listings, spawn outcomes, streamed output,
label list, rendered file sizes). -/
structure ConvEnv where
  name : Str
  model_path : Str
  cwd : Str
  format : Str
  opset : Int
  mapping_file : Option MappingStore
  collect : Str → List Str
  existsF : Str → Bool
  primary : Option (Int × Int)
  primary_output : List Str
  model_dir_listing : Option (List Str)
  script_exists : Bool
  secondary : Option (Int × Int)
  secondary_output : List Str
  workspace_listing : Option (List Str)
  labels : List Str
  sizeStr : Str → Str

/-- Fifty dashes, as in `"-" * 50`. -/
def dashes50 : Str := List.replicate 50 '-'

/-- The conversion background task (`run_model_conversion`'s
`conversion_task`), as the trace of job-state writes, conversion-log
appends and spawn attempts it performs, assuming no I/O exception is
raised.  Mirrors `app.py` lines 1117-1375. -/
def conversion_task (env : ConvEnv) : ConvTrace :=
  let name := env.name
  let transfer_dir := joinP (strL "transfer") name
  let mapping_info :=
    get_pt_dataset_mapping env.cwd (env.mapping_file.getD []) env.model_path
  let w0 : List StateWrite := [(strL "converting", none, some name)]
  let logsHead : List Str :=
    [strL "开始模型转换流程 - " ++ name ++ strL "\n",
     strL "模型文件: " ++ env.model_path ++ strL "\n",
     strL "绝对路径: " ++ abspath env.cwd env.model_path ++ strL "\n",
     strL "Transfer目录: " ++ transfer_dir ++ strL "\n\n",
     strL "=== 查找数据集映射关系 ===\n",
     strL "查找路径: " ++ env.model_path ++ strL "\n",
     strL "绝对路径: " ++ abspath env.cwd env.model_path ++ strL "\n"] ++
    (match env.mapping_file with
     | some ms =>
       (strL "映射文件中共有 " ++ natStr ms.length ++ strL " 条记录:\n") ::
       ms.map (fun kv => strL "  - " ++ kv.1 ++ strL "\n")
     | none => [strL "映射文件不存在\n"]) ++
    [strL "映射查找结果: " ++
       (if mapping_info.isSome then strL "找到" else strL "未找到") ++ strL "\n\n"]
  let logsImages : List Str :=
    match mapping_info with
    | some mi =>
      let all_images := env.collect mi.images_path
      [strL "=== 数据集图片收集与复制 ===\n",
       strL "数据集路径: " ++ mi.dataset_path ++ strL "\n",
       strL "Images路径: " ++ mi.images_path ++ strL "\n\n",
       strL "正在收集图片...\n",
       strL "找到 " ++ natStr all_images.length ++ strL " 张图片\n"] ++
      (if all_images ≠ [] then
        let co := copy_images_to_transfer env.existsF all_images transfer_dir 200
        [strL "正在复制图片到transfer目录...\n",
         strL "成功复制 " ++ natStr co.copied_images.length ++ strL " 张图片到 images/ 文件夹\n"] ++
        (match co.test_image with
         | some t => [strL "创建测试图片: " ++ basenameP t ++ strL "\n"]
         | none => []) ++
        [strL "图片复制完成!\n\n"]
      else [strL "⚠️ 未找到图片文件，跳过图片复制步骤\n\n"])
    | none => [strL "⚠️ 未找到数据集映射关系，跳过图片复制步骤\n\n"]
  let logs1 := logsHead ++ logsImages ++ [strL "=== ONNX模型转换 ===\n"]
  let docker_command :=
    build_docker_conversion_command env.cwd env.model_path env.format 224 320 env.opset name
  match env.primary with
  | none =>
    { stateWrites := w0 ++ [(strL "failed", none, some name)]
      logs := logs1 ++ [strL "\n❌ 无法启动Docker转换进程"]
      spawns := [.primary] }
  | some (pid, rc) =>
    let w1 := w0 ++ [(strL "converting", some pid, some name)]
    let logs2 := logs1 ++
      [strL "执行转换命令:\n" ++ docker_command ++ strL "\n\n"] ++ env.primary_output
    if rc = 0 then
      let model_dir := dirnameP env.model_path
      let onnx_files :=
        ((env.model_dir_listing.getD []).filter (fun f => endsWithL (strL ".onnx") f)).map
          (fun f => joinP model_dir f)
      let logsOnnx : List Str :=
        [strL "\n=== ONNX转换成功，复制模型文件 ===\n"] ++
        (if onnx_files ≠ [] then
          onnx_files.map (fun o => strL "已复制ONNX模型: " ++ basenameP o ++ strL "\n") ++
          [strL "\n✅ ONNX转换和文件复制完成: " ++ transfer_dir ++ strL "\n",
           strL "\n=== 复制转换脚本 ===\n"]
        else [])
      if onnx_files ≠ [] ∧ env.script_exists then
        let cvi_command := build_docker_cvimodel_command env.cwd transfer_dir
        let logsScript : List Str :=
          [strL "✅ 已复制转换脚本: convert_cvimodel.sh\n",
           strL "\n=== 执行CviModel转换 ===\n",
           strL "切换到目录: " ++ transfer_dir ++ strL "\n",
           strL "执行命令:\n" ++ cvi_command ++ strL "\n\n"]
        let logsCvi : List Str :=
          match env.secondary with
          | none =>
            [strL "❌ 无法启动CviModel转换进程\n", strL "ONNX模型仍可正常使用\n"]
          | some (_spid, src) =>
            [strL "CviModel转换输出:\n", dashes50 ++ strL "\n"] ++
            env.secondary_output ++ [dashes50 ++ strL "\n"] ++
            (if src = 0 then
              let fm := find_and_move_cvimodel env.sizeStr env.labels env.workspace_listing
                transfer_dir name (basenameP env.model_path)
              [strL "✅ CviModel转换完成!\n",
               strL "\n=== 处理CviModel文件 ===\n",
               fm.2.2.2 ++ strL "\n"] ++
              (match fm.1 with
               | some mp =>
                 [strL "CviModel文件路径: " ++ mp ++ strL "\n",
                  strL "CviModel文件大小: " ++ env.sizeStr mp ++ strL " MB\n"]
               | none => []) ++
              (match fm.2.1 with
               | some m =>
                 [strL "MUD配置文件路径: " ++ m ++ strL "\n",
                  strL "MUD文件大小: " ++ env.sizeStr m ++ strL " KB\n"]
               | none => []) ++
              (match fm.2.2.1 with
               | some z =>
                 [strL "模型包ZIP路径: " ++ z ++ strL "\n",
                  strL "ZIP文件大小: " ++ env.sizeStr z ++ strL " MB\n"]
               | none => []) ++
              [strL "\n🎉 完整的MaixCam模型包已创建: " ++ transfer_dir ++ strL "\n",
               strL "包含内容:\n",
               strL "  - images/ (200张训练图片)\n",
               strL "  - test.png/jpg (测试图片)\n",
               strL "  - *.onnx (ONNX模型)\n",
               strL "  - convert_cvimodel.sh (转换脚本)\n"] ++
              (match fm.1 with
               | some mp => [strL "  - " ++ basenameP mp ++ strL " (MaixCam优化模型) 🎯\n"]
               | none => []) ++
              (match fm.2.1 with
               | some m => [strL "  - " ++ basenameP m ++ strL " (MUD配置文件) 📋\n"]
               | none => []) ++
              (match fm.2.2.1 with
               | some z => [strL "  - " ++ basenameP z ++ strL " (完整模型包) 📦\n"]
               | none => [])
            else
              [strL "❌ CviModel转换失败，退出码: " ++ intStr src ++ strL "\n",
               strL "ONNX模型仍可正常使用\n"])
        { stateWrites := w1 ++ [(strL "completed", none, some name)]
          logs := logs2 ++ logsOnnx ++ logsScript ++ logsCvi ++
            [strL "\n✅ 模型转换和打包完成!"]
          spawns := [.primary, .secondary] }
      else
        let logsNoSecondary : List Str :=
          if onnx_files ≠ [] then
            [strL "⚠️ 未找到转换脚本: convert_cvimodel.sh\n",
             strL "请确保convert_cvimodel.sh文件存在于应用根目录\n",
             strL "ONNX转换已完成，可手动进行CviModel转换\n"]
          else [strL "⚠️ 未找到生成的ONNX文件\n"]
        { stateWrites := w1 ++ [(strL "completed", none, some name)]
          logs := logs2 ++ logsOnnx ++ logsNoSecondary ++
            [strL "\n✅ 模型转换和打包完成!"]
          spawns := [.primary] }
    else
      { stateWrites := w1 ++ [(strL "failed", none, some name)]
        logs := logs2 ++ [strL "\n❌ 模型转换失败，退出码: " ++ intStr rc]
        spawns := [.primary] }

/-- One observable step of the training background task. -/
inductive TrainEvent where
  | statusWrite (w : StateWrite)
  | clearLog
  | mapWrite (key : Str) (rec : MappingRec)
  | spawnAttempt
  | logLine (s : Str)
deriving DecidableEq

/-- Environment of one `run_docker_training` background-task execution. -/
structure TrainEnv where
  run_name : Str
  cwd : Str
  now : Str
  model : Str
  epochs : Int
  imgsz : Int
  spawn : Option (Int × Int)
  output : List Str

/-- The `"best.pt"` checkpoint path precomputed by the training task. -/
def futureBestPt (env : TrainEnv) : Str :=
  joinP (joinP (joinP (joinP env.cwd (strL "outputs")) env.run_name) (strL "weights"))
    (strL "best.pt")

/-- The `"last.pt"` checkpoint path precomputed by the training task. -/
def futureLastPt (env : TrainEnv) : Str :=
  joinP (joinP (joinP (joinP env.cwd (strL "outputs")) env.run_name) (strL "weights"))
    (strL "last.pt")

/-- The training background task (`run_docker_training`'s
`training_task`), as its ordered event trace.  Mirrors `app.py` lines
1040-1108: status write, log clear, the two mapping registrations, the
subprocess spawn, then the streamed output and the terminal write. -/
def training_task (env : TrainEnv) : List TrainEvent :=
  let bc := build_docker_training_command env.cwd env.model env.epochs env.imgsz env.run_name
  let data_path := bc.2.1
  let future_best_pt := futureBestPt env
  let future_last_pt := futureLastPt env
  [TrainEvent.statusWrite (strL "running", none, some env.run_name),
   TrainEvent.clearLog,
   TrainEvent.mapWrite future_best_pt (mk_mapping_rec data_path env.run_name env.now),
   TrainEvent.mapWrite future_last_pt (mk_mapping_rec data_path env.run_name env.now),
   TrainEvent.spawnAttempt] ++
  match env.spawn with
  | none =>
    [TrainEvent.statusWrite (strL "failed", none, none),
     TrainEvent.logLine (strL "\n❌ 无法启动Docker训练进程")]
  | some (pid, rc) =>
    [TrainEvent.statusWrite (strL "running", some pid, some env.run_name),
     TrainEvent.logLine (strL "开始执行命令:\n" ++ bc.1 ++ strL "\n\n"),
     TrainEvent.logLine (strL "已建立映射关系:\n"),
     TrainEvent.logLine (strL "  - " ++ future_best_pt ++ strL " -> " ++ data_path ++ strL "\n"),
     TrainEvent.logLine (strL "  - " ++ future_last_pt ++ strL " -> " ++ data_path ++ strL "\n\n")] ++
    env.output.map TrainEvent.logLine ++
    (if rc = 0 then
      [TrainEvent.statusWrite (strL "completed", none, some env.run_name),
       TrainEvent.logLine (strL "\n✅ 训练完成!")]
    else
      [TrainEvent.statusWrite (strL "failed", none, some env.run_name),
       TrainEvent.logLine (strL "\n❌ 训练失败，退出码: " ++ intStr rc)])

/-- The job-state writes of a training-task trace, in order. -/
def trainWrites (env : TrainEnv) : List StateWrite :=
  (training_task env).filterMap
    (fun e => match e with | TrainEvent.statusWrite w => some w | _ => none)

/- ### Stop requests (`stop_training` / `stop_conversion`) -/

/-- The observable effects of one stop request: termination attempts,
job-state writes, log appends. -/
structure StopOut where
  terminations : List Int
  stateWrites : List StateWrite
  logLines : List Str
deriving DecidableEq

/-- Python truthiness of the recorded pid (`if pid:`). -/
def pidTruthy : Option Int → Bool
  | none => false
  | some v => decide (v ≠ 0)

/-- `stop_training`: read the recorded pid; when truthy, attempt
termination (`succ` is the attempt's reported outcome), write `stopped`,
and log one line for either outcome; otherwise do nothing. -/
def stop_training (succ : Bool) (rec : StatusRec) : StopOut :=
  match rec.pid with
  | some p =>
    if p ≠ 0 then
      { terminations := [p]
        stateWrites := [(strL "stopped", none, none)]
        logLines :=
          [if succ then strL "\n⏹️ 训练已手动停止 (PID: " ++ intStr p ++ strL ")"
           else strL "\n⚠️ 尝试停止训练 (PID: " ++ intStr p ++ strL ")，请检查进程状态"] }
    else { terminations := [], stateWrites := [], logLines := [] }
  | none => { terminations := [], stateWrites := [], logLines := [] }

/-- `stop_conversion`: identical control flow to `stop_training`, writing
to the conversion log sink. -/
def stop_conversion (succ : Bool) (rec : StatusRec) : StopOut :=
  match rec.pid with
  | some p =>
    if p ≠ 0 then
      { terminations := [p]
        stateWrites := [(strL "stopped", none, none)]
        logLines :=
          [if succ then strL "\n⏹️ 模型转换已手动停止 (PID: " ++ intStr p ++ strL ")"
           else strL "\n⚠️ 尝试停止模型转换 (PID: " ++ intStr p ++ strL ")，请检查进程状态"] }
    else { terminations := [], stateWrites := [], logLines := [] }
  | none => { terminations := [], stateWrites := [], logLines := [] }

/- ### Concrete inputs used by witnesses and counterexamples -/

/-- A sample mapping record. -/
def sampleRec : MappingRec :=
  mk_mapping_rec (strL "/app/data") (strL "train_20240101_110000") (strL "2024-01-01T11:00:00")

/-- A second, distinct sample mapping record. -/
def sampleRec2 : MappingRec :=
  mk_mapping_rec (strL "/app/data2") (strL "train_20240102_110000") (strL "2024-01-02T11:00:00")

/-- A job-state record with a recorded pid of `0` (non-null but falsy in
Python). -/
def recPidZero : StatusRec :=
  { status := strL "converting", pid := some 0, timestamp := strL "t", current_run := none }

/-- A job-state record with a recorded pid of `7`. -/
def recPidSeven : StatusRec :=
  { status := strL "converting", pid := some 7, timestamp := strL "t",
    current_run := some (strL "export_20240101_120000") }

/-- A concrete conversion-task environment whose primary conversion
subprocess is spawned with pid 42. -/
def envConv (rc : Int) : ConvEnv :=
  { name := strL "export_20240101_120000"
    model_path := strL "outputs/run/weights/best.pt"
    cwd := strL "/app"
    format := strL "onnx"
    opset := 18
    mapping_file := none
    collect := fun _ => []
    existsF := fun _ => true
    primary := some (42, rc)
    primary_output := []
    model_dir_listing := none
    script_exists := false
    secondary := none
    secondary_output := []
    workspace_listing := none
    labels := [strL "cat", strL "dog"]
    sizeStr := fun _ => strL "1.00" }

/-- An idle initial job-state record. -/
def recIdle : StatusRec := defaultStatus (strL "2024-01-01T00:00:00")

/- ### Shared helper lemmas -/

theorem filterMap_eq_map_of_all {α β : Type} (f : α → Option β) (g : α → β)
    (l : List α) (h : ∀ a ∈ l, f a = some (g a)) : l.filterMap f = l.map g := by
  induction l with
  | nil => rfl
  | cons a l ih =>
    rw [List.filterMap_cons, h a (List.mem_cons_self a l), List.map_cons,
      ih (fun x hx => h x (List.mem_cons_of_mem a hx))]

/- ### C3: partial update of the job-state record -/

/-- C3: for every prior job-state record, a `set_status` call that
provides only a status (pid and current_run omitted) keeps the stored
pid and current_run unchanged, sets the given status and refreshes the
timestamp; in particular a bare `set_status("converting")` never alters
a previously set current_run. -/
theorem C3_set_status_partial_update (now : Str) (rec : StatusRec) (st : Str) :
    set_status now rec st none none =
      { status := st, pid := rec.pid, timestamp := now,
        current_run := rec.current_run } := rfl

/- ### C6: self-healing of `get_status` -/

/-- C6: on a missing backing file, `get_status` re-initializes to the
Idle default and returns it (two rounds suffice); but on a corrupt
(existing) backing file it never returns for any recursion depth,
because `init_status` rewrites only a missing file — the Python original
recurses unboundedly instead of self-healing. -/
theorem C6_get_status_missing_heals_corrupt_diverges (now : Str) :
    (∀ fuel, get_status_fuel now (fuel + 2) StatusFile.missing =
      some (defaultStatus now)) ∧
    (∀ fuel, get_status_fuel now fuel StatusFile.corrupt = none) := by
  constructor
  · intro fuel; rfl
  · intro fuel
    induction fuel with
    | zero => rfl
    | succ n ih => simpa [get_status_fuel, init_status] using ih

/- ### C8: stop requests -/

/-- C8 counterexample: a job-state record with a present (non-null) pid
of `0`: contrary to the claim, `stop_training` / `stop_conversion`
attempt no termination, write nothing and log nothing on it, because the
code tests Python truthiness (`if pid:`), not presence. -/
theorem C8_counterexample :
    recPidZero.pid.isSome = true ∧
    stop_training true recPidZero =
      { terminations := [], stateWrites := [], logLines := [] } ∧
    stop_conversion true recPidZero =
      { terminations := [], stateWrites := [], logLines := [] } :=
  ⟨rfl, rfl, rfl⟩

/-- C8 (amended): if a nonzero pid is recorded, `stop_training` and
`stop_conversion` attempt to terminate exactly that pid and write
`stopped`, with one log line regardless of the attempt's reported
outcome; if the recorded pid is null (or the falsy `0`), they are
complete no-ops. -/
theorem C8_stop_best_effort (succ : Bool) (rec : StatusRec) (p : Int) :
    (rec.pid = some p → p ≠ 0 →
      (stop_training succ rec).terminations = [p] ∧
      (stop_training succ rec).stateWrites = [(strL "stopped", none, none)] ∧
      (stop_training succ rec).logLines.length = 1 ∧
      (stop_conversion succ rec).terminations = [p] ∧
      (stop_conversion succ rec).stateWrites = [(strL "stopped", none, none)] ∧
      (stop_conversion succ rec).logLines.length = 1) ∧
    (pidTruthy rec.pid = false →
      stop_training succ rec = { terminations := [], stateWrites := [], logLines := [] } ∧
      stop_conversion succ rec = { terminations := [], stateWrites := [], logLines := [] }) := by
  constructor
  · intro hp hnz
    simp [stop_training, stop_conversion, hp, hnz]
  · intro hf
    match hrec : rec.pid with
    | none => simp [stop_training, stop_conversion, hrec]
    | some v =>
      rw [hrec] at hf
      simp only [pidTruthy, decide_eq_false_iff_not, not_not] at hf
      simp [stop_training, stop_conversion, hrec, hf]

/-- C8 witness: at a record with recorded pid 7 the stop request writes
`stopped` and attempts to terminate pid 7. -/
theorem C8_witness :
    (stop_training true recPidSeven).terminations = [7] ∧
    (stop_training true recPidSeven).stateWrites = [(strL "stopped", none, none)] := by
  have h := (C8_stop_best_effort true recPidSeven 7).1 rfl (by decide)
  exact ⟨h.1, h.2.1⟩

/- ### C9: descriptor generation -/

/-- C9: descriptor generation is pure and determined by the binary
model's filename and the label list (two paths with equal basenames get
byte-identical descriptor content); with labels `["cat","dog"]` and
binary filename `export_20240101_120000_int8.bin` the descriptor has the
exact lines `labels = cat, dog` and
`model = export_20240101_120000_int8.bin`; an empty label list falls
back to the single default token `object`. -/
theorem C9_descriptor_content (p q : Str) (labels : List Str) :
    (basenameP p = basenameP q →
      (create_mud_file labels p).2.1 = (create_mud_file labels q).2.1) ∧
    strL "labels = cat, dog" ∈
      (mud_content (strL "export_20240101_120000_int8.bin")
        [strL "cat", strL "dog"]).splitOn '\n' ∧
    strL "model = export_20240101_120000_int8.bin" ∈
      (mud_content (strL "export_20240101_120000_int8.bin")
        [strL "cat", strL "dog"]).splitOn '\n' ∧
    strL "labels = object" ∈
      (mud_content (strL "export_20240101_120000_int8.bin") []).splitOn '\n' := by
  refine ⟨fun h => ?_, by decide, by decide, by decide⟩
  show mud_content (basenameP p) labels = mud_content (basenameP q) labels
  rw [h]

/-- C9 witness: two different directories, same binary filename, equal
descriptor content. -/
theorem C9_witness :
    (create_mud_file [strL "cat"] (strL "transfer/a/export_x_int8.cvimodel")).2.1 =
    (create_mud_file [strL "cat"] (strL "transfer/b/export_x_int8.cvimodel")).2.1 :=
  (C9_descriptor_content (strL "transfer/a/export_x_int8.cvimodel")
    (strL "transfer/b/export_x_int8.cvimodel") [strL "cat"]).1 (by decide)

/- ### C7: mapping registrations precede the training spawn -/

/-- C7: in every execution of the training task, the trace starts with
the `running` status write, the log clear, the mapping-store
registrations for the future `best.pt` and `last.pt` checkpoint paths —
each pointing at the active dataset directory and carrying the run
name — and only then the subprocess spawn attempt; no mapping write ever
occurs after the spawn. -/
theorem C7_mappings_registered_before_spawn (env : TrainEnv) :
    ∃ rest,
      training_task env =
        TrainEvent.statusWrite (strL "running", none, some env.run_name) ::
        TrainEvent.clearLog ::
        TrainEvent.mapWrite (futureBestPt env)
          (mk_mapping_rec (joinP env.cwd (strL "data")) env.run_name env.now) ::
        TrainEvent.mapWrite (futureLastPt env)
          (mk_mapping_rec (joinP env.cwd (strL "data")) env.run_name env.now) ::
        TrainEvent.spawnAttempt :: rest ∧
      ∀ k r, TrainEvent.mapWrite k r ∉ rest := by
  refine ⟨_, rfl, ?_⟩
  intro k r hmem
  match hs : env.spawn with
  | none =>
    rw [hs] at hmem
    simp at hmem
  | some (pid, rc) =>
    rw [hs] at hmem
    by_cases hrc : rc = 0 <;> simp [hrc] at hmem

/- ### Shape lemmas for the conversion task -/

theorem conversion_task_fail_shape (env : ConvEnv) (pid rc : Int)
    (h1 : env.primary = some (pid, rc)) (h2 : rc ≠ 0) :
    (conversion_task env).stateWrites =
      [(strL "converting", none, some env.name),
       (strL "converting", some pid, some env.name),
       (strL "failed", none, some env.name)] ∧
    (∃ pre, (conversion_task env).logs =
      pre ++ [strL "\n❌ 模型转换失败，退出码: " ++ intStr rc]) ∧
    (conversion_task env).spawns = [SpawnTag.primary] := by
  unfold conversion_task
  rw [h1]
  simp only [if_neg h2]
  exact ⟨rfl, ⟨_, rfl⟩, trivial⟩

theorem conversion_task_success_shape (env : ConvEnv) (pid : Int)
    (h1 : env.primary = some (pid, 0)) :
    (conversion_task env).stateWrites =
      [(strL "converting", none, some env.name),
       (strL "converting", some pid, some env.name),
       (strL "completed", none, some env.name)] := by
  unfold conversion_task
  rw [h1]
  simp only [if_pos]
  by_cases hc : (List.map (fun f => joinP (dirnameP env.model_path) f)
      (List.filter (fun f => endsWithL (strL ".onnx") f) (env.model_dir_listing.getD [])) ≠ [] ∧
      env.script_exists = true)
  · rw [if_pos hc]; rfl
  · rw [if_neg hc]; rfl

theorem conversion_task_spawnfail_shape (env : ConvEnv)
    (h1 : env.primary = none) :
    (conversion_task env).stateWrites =
      [(strL "converting", none, some env.name),
       (strL "failed", none, some env.name)] := by
  unfold conversion_task
  rw [h1]
  rfl

/- ### C1: primary conversion failure is terminal -/

/-- C1: if the primary (ONNX) conversion subprocess exits with a nonzero
code, the conversion job state ends `failed` with current_run equal to
the conversion name (from any prior record), the failure-marker line is
appended to the conversion log sink, and no secondary (CviModel)
conversion spawn is ever attempted. -/
theorem C1_primary_failure_terminal (env : ConvEnv) (rec0 : StatusRec) (now : Str)
    (pid rc : Int) (hspawn : env.primary = some (pid, rc)) (hrc : rc ≠ 0) :
    (applyWrites now rec0 (conversion_task env).stateWrites).status = strL "failed" ∧
    (applyWrites now rec0 (conversion_task env).stateWrites).current_run =
      some env.name ∧
    (strL "\n❌ 模型转换失败，退出码: " ++ intStr rc) ∈ (conversion_task env).logs ∧
    SpawnTag.secondary ∉ (conversion_task env).spawns := by
  obtain ⟨hw, ⟨pre, hl⟩, hsp⟩ := conversion_task_fail_shape env pid rc hspawn hrc
  refine ⟨?_, ?_, ?_, ?_⟩
  · rw [hw]; rfl
  · rw [hw]; rfl
  · rw [hl]; simp
  · rw [hsp]; simp

/-- C1 witness: with the primary subprocess exiting 1, the job ends
failed on the conversion name, the failure marker is logged, and no
secondary spawn is attempted. -/
theorem C1_witness :
    (applyWrites (strL "T") recIdle (conversion_task (envConv 1)).stateWrites).status =
      strL "failed" ∧
    SpawnTag.secondary ∉ (conversion_task (envConv 1)).spawns := by
  have h := C1_primary_failure_terminal (envConv 1) recIdle (strL "T") 42 1 rfl (by decide)
  exact ⟨h.1, h.2.2.2⟩

/- ### C2: primary success always ends Completed -/

/-- C2: whenever the primary conversion subprocess exits with code 0 (and,
as modelled, no unhandled exception occurs), the conversion job's final
state write is `completed` on the conversion name — regardless of the
secondary stage's outcome, of whether the conversion script exists, and
of whether any ONNX file was found — and no `failed` write ever occurs. -/
theorem C2_primary_success_completed (env : ConvEnv) (rec0 : StatusRec) (now : Str)
    (pid : Int) (hspawn : env.primary = some (pid, 0)) :
    (conversion_task env).stateWrites.getLast? =
      some (strL "completed", none, some env.name) ∧
    (applyWrites now rec0 (conversion_task env).stateWrites).status =
      strL "completed" ∧
    (applyWrites now rec0 (conversion_task env).stateWrites).current_run =
      some env.name ∧
    ∀ w ∈ (conversion_task env).stateWrites, w.1 ≠ strL "failed" := by
  have hw := conversion_task_success_shape env pid hspawn
  refine ⟨by rw [hw]; rfl, by rw [hw]; rfl, by rw [hw]; rfl, ?_⟩
  rw [hw]
  intro w hwmem
  simp only [List.mem_cons, List.not_mem_nil, or_false] at hwmem
  rcases hwmem with h | h | h <;> subst h
  · exact (by decide : strL "converting" ≠ strL "failed")
  · exact (by decide : strL "converting" ≠ strL "failed")
  · exact (by decide : strL "completed" ≠ strL "failed")

/-- C2 witness: primary exit 0 with the conversion script absent and no
ONNX file found still ends `completed`. -/
theorem C2_witness :
    (applyWrites (strL "T") recIdle (conversion_task (envConv 0)).stateWrites).status =
      strL "completed" :=
  (C2_primary_success_completed (envConv 0) recIdle (strL "T") 42 rfl).2.1

/- ### Helper: the training task's state writes -/

theorem trainWrites_cases (tenv : TrainEnv) :
    trainWrites tenv = [(strL "running", none, some tenv.run_name),
                        (strL "failed", none, none)] ∨
    ∃ pid rc, tenv.spawn = some (pid, rc) ∧
      (trainWrites tenv = [(strL "running", none, some tenv.run_name),
                           (strL "running", some pid, some tenv.run_name),
                           (strL "completed", none, some tenv.run_name)] ∨
       trainWrites tenv = [(strL "running", none, some tenv.run_name),
                           (strL "running", some pid, some tenv.run_name),
                           (strL "failed", none, some tenv.run_name)]) := by
  rcases hs : tenv.spawn with _ | ⟨pid, rc⟩
  · left
    simp [trainWrites, training_task, hs]
  · right
    refine ⟨pid, rc, rfl, ?_⟩
    by_cases hrc : rc = 0
    · left
      simp [trainWrites, training_task, hs, hrc, List.filterMap_append]
    · right
      simp [trainWrites, training_task, hs, hrc, List.filterMap_append]

/- ### C10: the recorded pid is never cleared -/

/-- C10: no `set_status` call ever resets a non-null pid to null (the
writer replaces the pid only when one is provided); every terminal write
(`completed`, `failed`, `stopped`) of the conversion task, the training
task, and the stop requests passes no pid; consequently, after a
conversion run whose primary subprocess was spawned with pid `p`, the
terminal record still carries the stale `some p`, and a subsequent
`stop_conversion` finds it and attempts to terminate `p` instead of
being a no-op. -/
theorem C10_pid_never_cleared
    (now : Str) (rec : StatusRec) (st : Str) (pidArg : Option Int) (cr : Option Str)
    (env : ConvEnv) (rec0 : StatusRec) (succ : Bool) (p rc : Int)
    (hspawn : env.primary = some (p, rc)) (hp : p ≠ 0) :
    ((set_status now rec st none cr).pid = rec.pid) ∧
    (rec.pid.isSome = true → (set_status now rec st pidArg cr).pid.isSome = true) ∧
    (∀ env2 : ConvEnv, ∀ w ∈ (conversion_task env2).stateWrites,
      (w.1 = strL "completed" ∨ w.1 = strL "failed") → w.2.1 = none) ∧
    (∀ tenv : TrainEnv, ∀ w ∈ trainWrites tenv,
      (w.1 = strL "completed" ∨ w.1 = strL "failed" ∨ w.1 = strL "stopped") →
        w.2.1 = none) ∧
    (∀ recS : StatusRec, ∀ w ∈ (stop_conversion succ recS).stateWrites ++
        (stop_training succ recS).stateWrites, w.2.1 = none) ∧
    ((applyWrites now rec0 (conversion_task env).stateWrites).pid = some p ∧
     (stop_conversion succ
        (applyWrites now rec0 (conversion_task env).stateWrites)).terminations = [p] ∧
     (stop_conversion succ
        (applyWrites now rec0 (conversion_task env).stateWrites)).stateWrites =
       [(strL "stopped", none, none)]) := by
  have hcc : strL "converting" ≠ strL "completed" := by decide
  have hcf : strL "converting" ≠ strL "failed" := by decide
  have hrc2 : strL "running" ≠ strL "completed" := by decide
  have hrf : strL "running" ≠ strL "failed" := by decide
  have hrs : strL "running" ≠ strL "stopped" := by decide
  refine ⟨rfl, ?_, ?_, ?_, ?_, ?_⟩
  · intro h
    cases pidArg
    · simpa [set_status] using h
    · simp [set_status]
  · intro env2 w hw hterm
    rcases h2 : env2.primary with _ | ⟨q, rc2⟩
    · rw [conversion_task_spawnfail_shape env2 h2] at hw
      simp only [List.mem_cons, List.not_mem_nil, or_false] at hw
      rcases hw with h | h <;> subst h <;> rfl
    · by_cases hz : rc2 = 0
      · subst hz
        rw [conversion_task_success_shape env2 q h2] at hw
        simp only [List.mem_cons, List.not_mem_nil, or_false] at hw
        rcases hw with h | h | h <;> subst h
        · rfl
        · rcases hterm with h | h
          · exact absurd h hcc
          · exact absurd h hcf
        · rfl
      · rw [(conversion_task_fail_shape env2 q rc2 h2 hz).1] at hw
        simp only [List.mem_cons, List.not_mem_nil, or_false] at hw
        rcases hw with h | h | h <;> subst h
        · rfl
        · rcases hterm with h | h
          · exact absurd h hcc
          · exact absurd h hcf
        · rfl
  · intro tenv w hw hterm
    rcases trainWrites_cases tenv with heq | ⟨pid, rcT, _, heq | heq⟩ <;>
      rw [heq] at hw <;>
      simp only [List.mem_cons, List.not_mem_nil, or_false] at hw
    · rcases hw with h | h <;> subst h <;> rfl
    · rcases hw with h | h | h <;> subst h
      · rfl
      · rcases hterm with h | h | h
        · exact absurd h hrc2
        · exact absurd h hrf
        · exact absurd h hrs
      · rfl
    · rcases hw with h | h | h <;> subst h
      · rfl
      · rcases hterm with h | h | h
        · exact absurd h hrc2
        · exact absurd h hrf
        · exact absurd h hrs
      · rfl
  · intro recS w hw
    rcases hpid : recS.pid with _ | v
    · simp [stop_conversion, stop_training, hpid] at hw
    · by_cases hv : v = 0
      · simp [stop_conversion, stop_training, hpid, hv] at hw
      · simp [stop_conversion, stop_training, hpid, hv] at hw
        rw [hw]
  · have hfin : (applyWrites now rec0 (conversion_task env).stateWrites).pid = some p := by
      by_cases hz : rc = 0
      · subst hz
        rw [conversion_task_success_shape env p hspawn]
        rfl
      · rw [(conversion_task_fail_shape env p rc hspawn hz).1]
        rfl
    refine ⟨hfin, ?_, ?_⟩ <;> simp [stop_conversion, hfin, hp]

/- ### Helper: the assembled copies are the performed copies -/

theorem copyMkOut_copies (target_dir : Str) (l : List (Str × Str)) :
    (copyMkOut target_dir l).copies = l := by
  unfold copyMkOut
  rcases h : (l.map (fun c => c.2)).head? with _ | t <;> simp [h]

/-- C10 witness: after a conversion run whose primary subprocess had
pid 42 and exited 0, the terminal record still carries pid 42 and a stop
request attempts to terminate it. -/
theorem C10_witness :
    (applyWrites (strL "T") recIdle (conversion_task (envConv 0)).stateWrites).pid =
      some 42 ∧
    (stop_conversion true
      (applyWrites (strL "T") recIdle (conversion_task (envConv 0)).stateWrites)).terminations =
      [42] := by
  have h := (C10_pid_never_cleared (strL "T") recIdle (strL "x") none none
    (envConv 0) recIdle true 42 0 rfl (by decide)).2.2.2.2.2
  exact ⟨h.1, h.2.1⟩

/- ### C5: image sampling -/

/-- C5: for a corpus whose source files all exist, the sampling stage
with target 200: with `n ≥ 200` images it copies exactly the first 200
(the `i`-th copy takes source `i`); with `1 ≤ n < 200` it produces
exactly 200 copies cycling through the sources (the `i`-th copy takes
source `i mod n`); with `n = 0` it returns an empty result.  Every copy
is renamed to the zero-padded sequence `image_001.ext`, `image_002.ext`,
... in the `images/` subdirectory, keeping the source's extension. -/
theorem C5_sampling_cycle (existsF : Str → Bool) (images_list : List Str)
    (target_dir : Str) (hex : ∀ q ∈ images_list, existsF q = true) :
    (images_list.length ≥ 200 →
      (copy_images_to_transfer existsF images_list target_dir 200).copies.length = 200 ∧
      ∀ i, i < 200 →
        (copy_images_to_transfer existsF images_list target_dir 200).copies.get? i =
          (images_list.get? i).map (fun s =>
            (s, imageTarget (joinP target_dir (strL "images")) (i + 1) s))) ∧
    (0 < images_list.length → images_list.length < 200 →
      (copy_images_to_transfer existsF images_list target_dir 200).copies.length = 200 ∧
      ∀ i, i < 200 →
        (copy_images_to_transfer existsF images_list target_dir 200).copies.get? i =
          (images_list.get? (i % images_list.length)).map (fun s =>
            (s, imageTarget (joinP target_dir (strL "images")) (i + 1) s))) ∧
    (images_list.length = 0 →
      copy_images_to_transfer existsF images_list target_dir 200 =
        { copies := [], copied_images := [], test_copy := none, test_image := none }) := by
  refine ⟨fun hge => ?_, fun hpos hlt => ?_, fun h0 => ?_⟩
  · have hcopies :
        (copy_images_to_transfer existsF images_list target_dir 200).copies =
        (images_list.take 200).enum.map (fun q =>
          (q.2, imageTarget (joinP target_dir (strL "images")) (q.1 + 1) q.2)) := by
      unfold copy_images_to_transfer
      rw [if_pos hge, copyMkOut_copies]
      refine filterMap_eq_map_of_all _ _ _ ?_
      rintro ⟨i, x⟩ ha
      obtain ⟨hilt, hx⟩ := List.mem_enum ha
      have hxmem : x ∈ images_list := by
        rw [hx]
        exact List.mem_of_mem_take (List.getElem_mem hilt)
      dsimp only
      rw [if_pos (hex x hxmem)]
    constructor
    · rw [hcopies]
      simp [List.length_take, Nat.min_eq_left hge]
    · intro i hi
      rw [hcopies, List.get?_map, List.get?_enum, List.get?_take hi]
      cases images_list.get? i <;> rfl
  · have hne : ¬ images_list.length ≥ 200 := by omega
    have hnz : ¬ images_list.length = 0 := by omega
    have hcopies :
        (copy_images_to_transfer existsF images_list target_dir 200).copies =
        (List.range 200).map (fun i =>
          ((images_list.get? (i % images_list.length)).getD [],
           imageTarget (joinP target_dir (strL "images")) (i + 1)
             ((images_list.get? (i % images_list.length)).getD []))) := by
      unfold copy_images_to_transfer
      rw [if_neg hne, if_neg hnz, copyMkOut_copies]
      refine filterMap_eq_map_of_all _ _ _ (fun i _ => ?_)
      have hmod : i % images_list.length < images_list.length :=
        Nat.mod_lt _ hpos
      have hget : images_list.get? (i % images_list.length) =
          some (images_list.get ⟨i % images_list.length, hmod⟩) :=
        List.get?_eq_get hmod
      have hmem : (images_list.get? (i % images_list.length)).getD [] ∈ images_list := by
        rw [hget]
        exact List.get_mem _ _ _
      have hD : images_list.getD (i % images_list.length) [] =
          (images_list.get? (i % images_list.length)).getD [] := rfl
      dsimp only
      rw [hD, if_pos (hex _ hmem)]
    constructor
    · rw [hcopies]; simp
    · intro i hi
      have hmod : i % images_list.length < images_list.length :=
        Nat.mod_lt _ hpos
      have hget : images_list.get? (i % images_list.length) =
          some (images_list.get ⟨i % images_list.length, hmod⟩) :=
        List.get?_eq_get hmod
      rw [hcopies, List.get?_map, List.get?_range hi]
      simp only [Option.map_some']
      rw [hget]
      rfl
  · unfold copy_images_to_transfer
    have hne : ¬ images_list.length ≥ 200 := by omega
    rw [if_neg hne, if_pos h0]

/-- C5 witness: a 3-image corpus yields exactly 200 copies, and the 4th
copy cycles back to the first source image. -/
theorem C5_witness :
    (copy_images_to_transfer (fun _ => true)
      [strL "d/a.jpg", strL "d/b.png", strL "d/c.bmp"] (strL "transfer/x") 200).copies.length
      = 200 ∧
    (copy_images_to_transfer (fun _ => true)
      [strL "d/a.jpg", strL "d/b.png", strL "d/c.bmp"] (strL "transfer/x") 200).copies.get? 3 =
      some (strL "d/a.jpg", strL "transfer/x/images/image_004.jpg") := by
  have h := (C5_sampling_cycle (fun _ => true)
    [strL "d/a.jpg", strL "d/b.png", strL "d/c.bmp"] (strL "transfer/x")
    (fun q _ => rfl)).2.1 (by decide) (by decide)
  refine ⟨h.1, ?_⟩
  rw [h.2 3 (by decide)]
  decide

/- ### Path-layer lemmas for C4: splitting and joining -/

theorem splitSep_cons_sep (cs : Str) : splitSep ('/' :: cs) = [] :: splitSep cs := by
  simp [splitSep]

theorem splitSep_ne_nil (cs : Str) : splitSep cs ≠ [] := by
  induction cs with
  | nil => simp [splitSep]
  | cons c cs ih =>
    by_cases hc : c = '/'
    · subst hc; rw [splitSep_cons_sep]; simp
    · unfold splitSep
      rw [if_neg hc]
      rcases h : splitSep cs with _ | ⟨p, ps⟩ <;> simp

theorem splitSep_no_sep (cs : Str) : ∀ q ∈ splitSep cs, '/' ∉ q := by
  induction cs with
  | nil =>
    intro q hq
    simp only [splitSep, List.mem_singleton] at hq
    subst hq; simp
  | cons c cs ih =>
    intro q hq
    by_cases hc : c = '/'
    · subst hc
      rw [splitSep_cons_sep] at hq
      rcases List.mem_cons.mp hq with rfl | hq
      · simp
      · exact ih q hq
    · rcases h : splitSep cs with _ | ⟨p, ps⟩
      · exact absurd h (splitSep_ne_nil cs)
      · unfold splitSep at hq
        rw [if_neg hc, h] at hq
        rcases List.mem_cons.mp hq with rfl | hq
        · intro hmem
          rcases List.mem_cons.mp hmem with h1 | h1
          · exact hc h1.symm
          · exact ih p (h ▸ List.mem_cons_self p ps) h1
        · exact ih q (h ▸ List.mem_cons_of_mem p hq)

theorem splitSep_append_no_sep (q cs : Str) (hq : '/' ∉ q) :
    splitSep (q ++ cs) = (splitSep cs).modifyHead (fun x => q ++ x) := by
  induction q with
  | nil =>
    rcases h : splitSep cs with _ | ⟨p, ps⟩
    · exact absurd h (splitSep_ne_nil cs)
    · simp [h]
  | cons c q ih =>
    have hc : c ≠ '/' := fun hcc => hq (hcc ▸ List.mem_cons_self c q)
    have hq2 : '/' ∉ q := fun hm => hq (List.mem_cons_of_mem c hm)
    rcases h : splitSep cs with _ | ⟨p, ps⟩
    · exact absurd h (splitSep_ne_nil cs)
    · have ihq := ih hq2
      rw [h] at ihq
      simp only [List.modifyHead] at ihq ⊢
      show splitSep (c :: (q ++ cs)) = ((c :: q) ++ p) :: ps
      unfold splitSep
      rw [if_neg hc, ihq]
      rfl

theorem splitSep_no_sep_single (q : Str) (hq : '/' ∉ q) : splitSep q = [q] := by
  have h := splitSep_append_no_sep q [] hq
  rw [List.append_nil] at h
  rw [h]
  simp [splitSep, List.modifyHead]

theorem splitSep_joinSep (parts : List Str) (hne : parts ≠ [])
    (hsep : ∀ q ∈ parts, '/' ∉ q) : splitSep (joinSep parts) = parts := by
  induction parts with
  | nil => exact absurd rfl hne
  | cons p parts ih =>
    rcases parts with _ | ⟨p2, rest⟩
    · exact splitSep_no_sep_single p (hsep p (List.mem_cons_self _ _))
    · have hp : '/' ∉ p := hsep p (List.mem_cons_self _ _)
      show splitSep (p ++ '/' :: joinSep (p2 :: rest)) = p :: p2 :: rest
      rw [splitSep_append_no_sep p _ hp, splitSep_cons_sep,
        ih (by simp) (fun q hq => hsep q (List.mem_cons_of_mem p hq))]
      simp [List.modifyHead]

/- ### Path-layer lemmas for C4: the normalization loop -/

theorem normLoop_skip_empty (flag : Bool) (acc : List Str) (k : Nat) (rest : List Str) :
    normLoop flag acc (List.replicate k [] ++ rest) = normLoop flag acc rest := by
  induction k with
  | zero => rfl
  | succ n ih =>
    rw [List.replicate_succ, List.cons_append]
    calc normLoop flag acc ([] :: (List.replicate n [] ++ rest))
        = normLoop flag acc (List.replicate n [] ++ rest) := rfl
      _ = normLoop flag acc rest := ih

theorem normLoop_all_push (comps : List Str)
    (h : ∀ c ∈ comps, c ≠ [] ∧ c ≠ ['.'] ∧ c ≠ ddot) :
    ∀ (flag : Bool) (acc : List Str), normLoop flag acc comps = acc.reverse ++ comps := by
  induction comps with
  | nil => intro flag acc; simp [normLoop]
  | cons comp rest ih =>
    intro flag acc
    obtain ⟨h1, h2, h3⟩ := h comp (List.mem_cons_self _ _)
    unfold normLoop
    rw [if_neg (by simp [h1, h2]), if_pos (Or.inl h3)]
    rw [ih (fun c hc => h c (List.mem_cons_of_mem _ hc)) flag (comp :: acc)]
    simp

theorem normLoop_rel_prefix (rest : List Str)
    (hrest : ∀ c ∈ rest, c ≠ [] ∧ c ≠ ['.'] ∧ c ≠ ddot) :
    ∀ k j, normLoop false (List.replicate j ddot) (List.replicate k ddot ++ rest) =
      List.replicate (j + k) ddot ++ rest := by
  intro k
  induction k with
  | zero =>
    intro j
    rw [List.replicate, List.nil_append,
      normLoop_all_push rest hrest false (List.replicate j ddot),
      List.reverse_replicate, Nat.add_zero]
  | succ n ih =>
    intro j
    rw [List.replicate_succ, List.cons_append]
    unfold normLoop
    rw [if_neg (by decide)]
    rcases Nat.eq_zero_or_pos j with hj | hj
    · subst hj
      rw [if_pos (Or.inr (Or.inl ⟨rfl, rfl⟩))]
      have h1n := ih 1
      rw [show (1 : Nat) + n = 0 + (n + 1) by omega] at h1n
      rw [show (ddot :: List.replicate 0 ddot) = List.replicate 1 ddot from rfl, h1n]
    · have hhead : (List.replicate j ddot).head? = some ddot := by
        rcases j with _ | j2
        · omega
        · rw [List.replicate_succ, List.head?_cons]
      rw [if_pos (Or.inr (Or.inr hhead))]
      have hjn := ih (j + 1)
      rw [show j + 1 + n = j + (n + 1) by omega] at hjn
      rw [show (ddot :: List.replicate j ddot) = List.replicate (j + 1) ddot from
        (List.replicate_succ ddot j).symm, hjn]

theorem normLoop_abs_clean (comps : List Str) :
    ∀ acc, (∀ c ∈ comps, '/' ∉ c) → (∀ c ∈ acc, cleanComp c ∧ c ≠ ddot) →
      ∀ c ∈ normLoop true acc comps, cleanComp c ∧ c ≠ ddot := by
  induction comps with
  | nil =>
    intro acc _ hacc c hc
    unfold normLoop at hc
    exact hacc c (List.mem_reverse.mp hc)
  | cons comp rest ih =>
    intro acc hsep hacc
    have hsep2 : ∀ c ∈ rest, '/' ∉ c := fun c hc => hsep c (List.mem_cons_of_mem _ hc)
    unfold normLoop
    split_ifs with h1 h2 h3
    · exact ih acc hsep2 hacc
    · refine ih (comp :: acc) hsep2 ?_
      intro c hc
      rcases List.mem_cons.mp hc with rfl | hc
      · push_neg at h1
        refine ⟨⟨h1.1, h1.2, hsep c (List.mem_cons_self _ _)⟩, ?_⟩
        rcases h2 with h2 | h2 | h2
        · exact h2
        · simp at h2
        · exact absurd rfl (hacc ddot (List.mem_of_mem_head? (h2 ▸ rfl))).2
      · exact hacc c hc
    · exact ih acc hsep2 hacc
    · refine ih acc.tail hsep2 ?_
      intro c hc
      exact hacc c (List.mem_of_mem_tail hc)

theorem normLoop_rel_NF (comps : List Str) :
    ∀ (front : List Str) (k : Nat), (∀ c ∈ comps, '/' ∉ c) →
      (∀ c ∈ front, cleanComp c ∧ c ≠ ddot) →
      ∃ k2 rest2, normLoop false (front ++ List.replicate k ddot) comps =
        List.replicate k2 ddot ++ rest2 ∧ ∀ c ∈ rest2, cleanComp c ∧ c ≠ ddot := by
  induction comps with
  | nil =>
    intro front k _ hfront
    refine ⟨k, front.reverse, ?_, ?_⟩
    · unfold normLoop
      rw [List.reverse_append, List.reverse_replicate]
    · intro c hc
      exact hfront c (List.mem_reverse.mp hc)
  | cons comp rest ih =>
    intro front k hsep hfront
    have hsep2 : ∀ c ∈ rest, '/' ∉ c := fun c hc => hsep c (List.mem_cons_of_mem _ hc)
    unfold normLoop
    split_ifs with h1 h2 h3
    · exact ih front k hsep2 hfront
    · by_cases hdd : comp = ddot
      · subst hdd
        have hfrontnil : front = [] := by
          rcases h2 with h2 | h2 | h2
          · exact absurd rfl h2
          · exact List.append_eq_nil.mp h2.2 |>.1
          · rcases hf : front with _ | ⟨f, fs⟩
            · rfl
            · rw [hf, List.cons_append, List.head?_cons] at h2
              exact absurd (Option.some.inj h2) (hfront f (hf ▸ List.mem_cons_self f fs)).2
        subst hfrontnil
        have := ih [] (k + 1) hsep2 (by intro c hc; simp at hc)
        rw [List.nil_append] at this ⊢
        rw [show (ddot :: List.replicate k ddot) = List.replicate (k + 1) ddot from
          (List.replicate_succ ddot k).symm]
        exact this
      · push_neg at h1
        have := ih (comp :: front) k hsep2 (by
          intro c hc
          rcases List.mem_cons.mp hc with rfl | hc
          · exact ⟨⟨h1.1, h1.2, hsep c (List.mem_cons_self _ _)⟩, hdd⟩
          · exact hfront c hc)
        rw [List.cons_append] at this
        exact this
    · exact ih front k hsep2 hfront
    · rcases hf : front with _ | ⟨f, fs⟩
      · subst hf
        rw [List.nil_append] at h3 ⊢
        rcases Nat.eq_zero_or_pos k with hk | hk
        · subst hk; exact absurd rfl h3
        · obtain ⟨k2, hk2⟩ := Nat.exists_eq_add_of_lt hk
          rw [show k = k2 + 1 by omega, List.replicate_succ, List.tail_cons]
          exact ih [] k2 hsep2 (by intro c hc; simp at hc)
      · subst hf
        rw [List.cons_append, List.tail_cons]
        exact ih fs k hsep2 (fun c hc => hfront c (List.mem_cons_of_mem _ hc))

/- ### Path-layer lemmas for C4: normpath characterization -/

theorem normpath_eq (p : Str) :
    normpath p = renderOut (initialSlashes p)
      (normLoop (decide (0 < initialSlashes p)) [] (splitSep p)) := by
  unfold normpath
  split
  · next h => subst h; rfl
  · rfl

theorem initialSlashes_cases (p : Str) :
    initialSlashes p = 0 ∨ initialSlashes p = 1 ∨ initialSlashes p = 2 := by
  unfold initialSlashes
  split_ifs <;> simp

theorem isabs_eq (p : Str) : isabs p = decide (0 < initialSlashes p) := by
  unfold isabs initialSlashes
  split_ifs with h1 h2 <;> simp [h1]

theorem isabs_cons (a : Char) (l : Str) : isabs (a :: l) = decide (a = '/') := by
  show decide ([a] = ['/']) = decide (a = '/')
  by_cases h : a = '/' <;> simp [h]

theorem initialSlashes_nonsep (ch : Char) (rest : Str) (h : ch ≠ '/') :
    initialSlashes (ch :: rest) = 0 := by
  unfold initialSlashes
  rw [if_neg]
  intro hh
  exact h (List.cons.inj (show [ch] = ['/'] from hh)).1

theorem initialSlashes_one (ch : Char) (rest : Str) (h : ch ≠ '/') :
    initialSlashes ('/' :: ch :: rest) = 1 := by
  unfold initialSlashes
  rw [if_pos (show ('/' :: ch :: rest).take 1 = ['/'] from rfl),
    if_neg (fun hh => h
      ((List.cons.inj ((List.cons.inj (show ['/', ch] = ['/', '/'] from hh.1)).2)).1))]

theorem initialSlashes_two (ch : Char) (rest : Str) (h : ch ≠ '/') :
    initialSlashes ('/' :: '/' :: ch :: rest) = 2 := by
  unfold initialSlashes
  rw [if_pos (show ('/' :: '/' :: ch :: rest).take 1 = ['/'] from rfl),
    if_pos (And.intro (show ('/' :: '/' :: ch :: rest).take 2 = ['/', '/'] from rfl)
      (show ('/' :: '/' :: ch :: rest).take 3 ≠ ['/', '/', '/'] from
        fun hh => h ((List.cons.inj ((List.cons.inj ((List.cons.inj
          (show ['/', '/', ch] = ['/', '/', '/'] from hh)).2)).2)).1)))]

theorem joinSep_cons_exists (c : Str) (cs : List Str) :
    ∃ t, joinSep (c :: cs) = c ++ t := by
  rcases cs with _ | ⟨c2, rest⟩
  · exact ⟨[], by simp [joinSep]⟩
  · exact ⟨'/' :: joinSep (c2 :: rest), rfl⟩

theorem normLoop_splitSep_NF (p : Str) (flag : Bool) :
    compsNF flag (normLoop flag [] (splitSep p)) := by
  cases flag
  · unfold compsNF
    rw [if_neg (by simp)]
    have h := normLoop_rel_NF (splitSep p) [] 0 (splitSep_no_sep p)
      (by intro c hc; simp at hc)
    simpa using h
  · unfold compsNF
    rw [if_pos rfl]
    exact normLoop_abs_clean (splitSep p) [] (splitSep_no_sep p)
      (by intro c hc; simp at hc)

theorem compsNF_elem (flag : Bool) (comps : List Str) (h : compsNF flag comps) :
    ∀ c ∈ comps, c ≠ [] ∧ '/' ∉ c := by
  cases flag
  · unfold compsNF at h
    rw [if_neg (by simp)] at h
    obtain ⟨k, rest, rfl, hrest⟩ := h
    intro c hc
    rcases List.mem_append.mp hc with hc | hc
    · have hdd := List.eq_of_mem_replicate hc
      subst hdd
      exact ⟨by decide, by decide⟩
    · exact ⟨(hrest c hc).1.1, (hrest c hc).1.2.2⟩
  · unfold compsNF at h
    rw [if_pos rfl] at h
    intro c hc
    exact ⟨(h c hc).1.1, (h c hc).1.2.2⟩

theorem normLoop_NF_id (flag : Bool) (comps : List Str) (h : compsNF flag comps) :
    normLoop flag [] comps = comps := by
  cases flag
  · unfold compsNF at h
    rw [if_neg (by simp)] at h
    obtain ⟨k, rest, rfl, hrest⟩ := h
    have hh := normLoop_rel_prefix rest
      (fun c hc => ⟨(hrest c hc).1.1, (hrest c hc).1.2.1, (hrest c hc).2⟩) k 0
    simpa using hh
  · unfold compsNF at h
    rw [if_pos rfl] at h
    have hh := normLoop_all_push comps
      (fun c hc => ⟨(h c hc).1.1, (h c hc).1.2.1, (h c hc).2⟩) true []
    simpa using hh

theorem renderOut_cons (s : Nat) (c : Str) (cs : List Str) (hc : c ≠ []) :
    renderOut s (c :: cs) = List.replicate s '/' ++ joinSep (c :: cs) := by
  obtain ⟨ch, c2, rfl⟩ := List.exists_cons_of_ne_nil hc
  obtain ⟨t, ht⟩ := joinSep_cons_exists (ch :: c2) cs
  unfold renderOut
  rw [if_neg (by rw [ht]; simp)]

theorem normpath_renderOut_id (s : Nat) (comps : List Str)
    (hs : s = 0 ∨ s = 1 ∨ s = 2)
    (hNF : compsNF (decide (0 < s)) comps)
    (helem : ∀ c ∈ comps, c ≠ [] ∧ '/' ∉ c) :
    normpath (renderOut s comps) = renderOut s comps := by
  rcases comps with _ | ⟨c, cs⟩
  · rcases hs with rfl | rfl | rfl <;> decide
  · obtain ⟨hcne, hcsep⟩ := helem c (List.mem_cons_self _ _)
    obtain ⟨ch, c2, rfl⟩ := List.exists_cons_of_ne_nil hcne
    have hch : ch ≠ '/' := fun hh => hcsep (List.mem_cons.mpr (Or.inl hh.symm))
    obtain ⟨t, ht⟩ := joinSep_cons_exists (ch :: c2) cs
    have hr := renderOut_cons s (ch :: c2) cs (by simp)
    have hsplit : splitSep (joinSep ((ch :: c2) :: cs)) = (ch :: c2) :: cs :=
      splitSep_joinSep _ (by simp) (fun q hq => (helem q hq).2)
    rcases hs with rfl | rfl | rfl
    · have hr0 : renderOut 0 ((ch :: c2) :: cs) = joinSep ((ch :: c2) :: cs) := hr
      rw [hr0, normpath_eq]
      have hslash : initialSlashes (joinSep ((ch :: c2) :: cs)) = 0 := by
        rw [ht]
        exact initialSlashes_nonsep ch (c2 ++ t) hch
      rw [hslash, hsplit]
      rw [show normLoop (decide ((0 : Nat) < 0)) [] ((ch :: c2) :: cs) =
        normLoop false [] ((ch :: c2) :: cs) from rfl]
      rw [normLoop_NF_id false ((ch :: c2) :: cs) hNF]
      exact hr0
    · have hr1 : renderOut 1 ((ch :: c2) :: cs) = '/' :: joinSep ((ch :: c2) :: cs) := hr
      rw [hr1, normpath_eq]
      have hslash : initialSlashes ('/' :: joinSep ((ch :: c2) :: cs)) = 1 := by
        rw [ht]
        exact initialSlashes_one ch (c2 ++ t) hch
      rw [hslash, splitSep_cons_sep, hsplit]
      rw [show normLoop (decide ((0 : Nat) < 1)) [] ([] :: (ch :: c2) :: cs) =
        normLoop true [] ((ch :: c2) :: cs) from rfl]
      rw [normLoop_NF_id true ((ch :: c2) :: cs) hNF]
      exact hr1
    · have hr2 : renderOut 2 ((ch :: c2) :: cs) =
          '/' :: '/' :: joinSep ((ch :: c2) :: cs) := hr
      rw [hr2, normpath_eq]
      have hslash : initialSlashes ('/' :: '/' :: joinSep ((ch :: c2) :: cs)) = 2 := by
        rw [ht]
        exact initialSlashes_two ch (c2 ++ t) hch
      rw [hslash, splitSep_cons_sep, splitSep_cons_sep, hsplit]
      rw [show normLoop (decide ((0 : Nat) < 2)) [] ([] :: [] :: (ch :: c2) :: cs) =
        normLoop true [] ((ch :: c2) :: cs) from rfl]
      rw [normLoop_NF_id true ((ch :: c2) :: cs) hNF]
      exact hr2

theorem normpath_idem (p : Str) : normpath (normpath p) = normpath p := by
  rw [normpath_eq p]
  exact normpath_renderOut_id (initialSlashes p) _ (initialSlashes_cases p)
    (normLoop_splitSep_NF p _)
    (compsNF_elem _ _ (normLoop_splitSep_NF p _))

theorem isabs_renderOut (s : Nat) (comps : List Str)
    (hs : s = 0 ∨ s = 1 ∨ s = 2)
    (helem : ∀ c ∈ comps, c ≠ [] ∧ '/' ∉ c) :
    isabs (renderOut s comps) = decide (0 < s) := by
  rcases comps with _ | ⟨c, cs⟩
  · rcases hs with rfl | rfl | rfl <;> decide
  · obtain ⟨hcne, hcsep⟩ := helem c (List.mem_cons_self _ _)
    obtain ⟨ch, c2, rfl⟩ := List.exists_cons_of_ne_nil hcne
    have hch : ch ≠ '/' := fun hh => hcsep (List.mem_cons.mpr (Or.inl hh.symm))
    obtain ⟨t, ht⟩ := joinSep_cons_exists (ch :: c2) cs
    have hr := renderOut_cons s (ch :: c2) cs (by simp)
    rcases hs with rfl | rfl | rfl
    · rw [hr, ht]
      simp only [List.replicate_zero, List.nil_append, List.cons_append]
      rw [isabs_cons]
      simp [hch]
    · rw [hr, ht]
      simp only [List.replicate_succ, List.replicate_zero, List.nil_append,
        List.cons_append]
      rw [isabs_cons]
      simp
    · rw [hr, ht]
      simp only [List.replicate_succ, List.replicate_zero, List.nil_append,
        List.cons_append]
      rw [isabs_cons]
      simp

theorem isabs_normpath (p : Str) : isabs (normpath p) = isabs p := by
  rw [normpath_eq p, isabs_eq p]
  exact isabs_renderOut _ _ (initialSlashes_cases p)
    (compsNF_elem _ _ (normLoop_splitSep_NF p _))

theorem abspath_of_isabs (cwd p : Str) (h : isabs p = true) :
    abspath cwd p = normpath p := by
  unfold abspath
  rw [if_pos h]

theorem normpath_abspath (cwd p : Str) :
    normpath (abspath cwd p) = abspath cwd p := by
  unfold abspath
  split
  · exact normpath_idem p
  · exact normpath_idem _

/- ### Association-store lemmas for C4 -/

theorem lookupAssoc_some (m : MappingStore) (k : Str) (r : MappingRec)
    (h : lookupAssoc m k = some r) : (k, r) ∈ m := by
  unfold lookupAssoc at h
  rcases hf : m.find? (fun kv => decide (kv.1 = k)) with _ | kv
  · rw [hf] at h; cases h
  · rw [hf] at h
    simp only [Option.map_some'] at h
    obtain rfl : kv.2 = r := Option.some.inj h
    have hm := List.mem_of_find?_eq_some hf
    have hp := List.find?_some hf
    simp only [decide_eq_true_eq] at hp
    show (k, kv.2) ∈ m
    rw [← hp]
    exact hm

theorem assoc_entry_unique (m : MappingStore) (hnd : (m.map Prod.fst).Nodup)
    (k : Str) (r1 r2 : MappingRec) (h1 : (k, r1) ∈ m) (h2 : (k, r2) ∈ m) :
    r1 = r2 := by
  induction m with
  | nil => cases h1
  | cons kv rest ih =>
    rw [List.map_cons] at hnd
    have hknot : kv.1 ∉ rest.map Prod.fst := (List.nodup_cons.mp hnd).1
    have hnd2 : (rest.map Prod.fst).Nodup := (List.nodup_cons.mp hnd).2
    rcases List.mem_cons.mp h1 with h1h | h1t <;> rcases List.mem_cons.mp h2 with h2h | h2t
    · exact (Prod.ext_iff.mp (h1h.trans h2h.symm)).2
    · rw [← h1h] at hknot
      exact absurd (List.mem_map.mpr ⟨(k, r2), h2t, rfl⟩) hknot
    · rw [← h2h] at hknot
      exact absurd (List.mem_map.mpr ⟨(k, r1), h1t, rfl⟩) hknot
    · exact ih hnd2 h1t h2t

/- ### C4: mapping-store lookup under path-representation differences -/

/-- C4 counterexample: the claim as stated fails.  First instance: a
relative registered key `a//b`; the separator-normalized-equivalent path
`a/b` looks up to nothing while the key itself looks up to its record
(the normalized scan compares against the absolutized query, which a
relative key never matches).  Second instance: two absolute keys
`/x//y` and `/x/y` that normalize to the same path but carry different
records; each exact-matches its own record, so the two equivalent paths
return different records. -/
theorem C4_counterexample :
    (normpath (strL "a/b") = normpath (strL "a//b") ∧
     get_pt_dataset_mapping (strL "/cwd") [(strL "a//b", sampleRec)] (strL "a//b") =
       some sampleRec ∧
     get_pt_dataset_mapping (strL "/cwd") [(strL "a//b", sampleRec)] (strL "a/b") =
       none) ∧
    (isabs (strL "/x//y") = true ∧ isabs (strL "/x/y") = true ∧
     normpath (strL "/x/y") = normpath (strL "/x//y") ∧
     get_pt_dataset_mapping (strL "/cwd")
       [(strL "/x//y", sampleRec), (strL "/x/y", sampleRec2)] (strL "/x//y") =
       some sampleRec ∧
     get_pt_dataset_mapping (strL "/cwd")
       [(strL "/x//y", sampleRec), (strL "/x/y", sampleRec2)] (strL "/x/y") =
       some sampleRec2 ∧
     sampleRec ≠ sampleRec2) := by
  decide

/-- C4 (amended): the lookup-equivalence property holds provided the
registered keys are absolute paths, keys are unique (a JSON object), and
no two distinct keys normalize to the same path: then for a registered
key `p1` and any `p2` that is absolute-path-equivalent or
separator-normalized-equivalent to it, `lookup p2` returns the same
record as `lookup p1`; and on an empty store every lookup returns
none. -/
theorem C4_lookup_path_equivalence :
    (∀ (cwd : Str) (m : MappingStore) (p1 p2 : Str) (r : MappingRec),
      (m.map Prod.fst).Nodup →
      (∀ k ∈ m.map Prod.fst, isabs k = true) →
      (∀ k1 k2, k1 ∈ m.map Prod.fst → k2 ∈ m.map Prod.fst →
        normpath k1 = normpath k2 → k1 = k2) →
      lookupAssoc m p1 = some r →
      (abspath cwd p2 = abspath cwd p1 ∨ normpath p2 = normpath p1) →
      get_pt_dataset_mapping cwd m p2 = some r ∧
      get_pt_dataset_mapping cwd m p1 = some r) ∧
    (∀ (cwd p : Str), get_pt_dataset_mapping cwd [] p = none) := by
  constructor
  · intro cwd m p1 p2 r hnd habs hinj hkey hequiv
    have hp1m : (p1, r) ∈ m := lookupAssoc_some m p1 r hkey
    have hp1k : p1 ∈ m.map Prod.fst := List.mem_map.mpr ⟨(p1, r), hp1m, rfl⟩
    have habs1 : isabs p1 = true := habs p1 hp1k
    have hNp1 : abspath cwd p1 = normpath p1 := abspath_of_isabs cwd p1 habs1
    have hA : abspath cwd p2 = normpath p1 := by
      rcases hequiv with h | h
      · rw [h, hNp1]
      · have habs2 : isabs p2 = true := by
          rw [← isabs_normpath p2, h, isabs_normpath p1]
          exact habs1
        rw [abspath_of_isabs cwd p2 habs2, h]
    have hNN : normpath (normpath p1) = normpath p1 := normpath_idem p1
    have hlook1 : get_pt_dataset_mapping cwd m p1 = some r := by
      simp only [get_pt_dataset_mapping]
      rw [hkey]
    refine ⟨?_, hlook1⟩
    simp only [get_pt_dataset_mapping]
    rcases hL2 : lookupAssoc m p2 with _ | r2
    · rw [hA]
      rcases hL3 : lookupAssoc m (normpath p1) with _ | r3
      · rw [hNN, hL3]
        rcases hF : m.find? (fun kv => decide (normpath kv.1 = normpath p1)) with _ | kv
        · exfalso
          have hcontra := List.find?_eq_none.mp hF (p1, r) hp1m
          simp at hcontra
        · have hkv1 : normpath kv.1 = normpath p1 := by
            have hp := List.find?_some hF
            simpa using hp
          have hkvm := List.mem_of_find?_eq_some hF
          have hkvk : kv.1 ∈ m.map Prod.fst := List.mem_map.mpr ⟨kv, hkvm, rfl⟩
          have hkvp1 : kv.1 = p1 := hinj kv.1 p1 hkvk hp1k hkv1
          have hr : kv.2 = r := by
            apply assoc_entry_unique m hnd p1
            · rw [← hkvp1]
              exact (show (kv.1, kv.2) ∈ m from hkvm)
            · exact hp1m
          rw [hF]
          simp only [Option.map_some']
          rw [hr]
      · have hk3 : (normpath p1, r3) ∈ m := lookupAssoc_some _ _ _ hL3
        have hk3k : normpath p1 ∈ m.map Prod.fst := List.mem_map.mpr ⟨_, hk3, rfl⟩
        have heqk : normpath p1 = p1 := hinj (normpath p1) p1 hk3k hp1k (by rw [hNN])
        have hr3 : r3 = r := by
          apply assoc_entry_unique m hnd p1
          · rw [← heqk]
            exact hk3
          · exact hp1m
        rw [hr3]
    · have hk2 : (p2, r2) ∈ m := lookupAssoc_some _ _ _ hL2
      have hk2k : p2 ∈ m.map Prod.fst := List.mem_map.mpr ⟨_, hk2, rfl⟩
      have habs2 : isabs p2 = true := habs p2 hk2k
      have hnorm2 : normpath p2 = normpath p1 := by
        rw [← abspath_of_isabs cwd p2 habs2, hA]
      have heqp : p2 = p1 := hinj p2 p1 hk2k hp1k hnorm2
      subst heqp
      rw [hkey] at hL2
      rw [← Option.some.inj hL2]
  · intro cwd p
    rfl

/-- C4 witness: an absolute key `/x/y` is found from the
separator-variant query `/x//y`. -/
theorem C4_witness :
    get_pt_dataset_mapping (strL "/cwd") [(strL "/x/y", sampleRec)] (strL "/x//y") =
      some sampleRec ∧
    get_pt_dataset_mapping (strL "/cwd") [(strL "/x/y", sampleRec)] (strL "/x/y") =
      some sampleRec := by
  exact C4_lookup_path_equivalence.1 (strL "/cwd") [(strL "/x/y", sampleRec)]
    (strL "/x/y") (strL "/x//y") sampleRec
    (by decide)
    (by intro k hk; simp only [List.map, List.mem_singleton] at hk; rw [hk]; decide)
    (by
      intro k1 k2 h1 h2 _
      simp only [List.map, List.mem_singleton] at h1 h2
      rw [h1, h2])
    (by decide)
    (Or.inr (by decide))
